import Mathlib

/-!
Shallow embedding of `src/contribution.go` (package main of the inmap
sandbox).  Go `float64` values are modelled as `ℚ`; `int` population counts as
`ℤ`; gonum `mat.VecDense` as `List ℚ`; gonum `mat.Dense` as a row-major
`GoMat` carrying its declared dimensions, exactly like `mat.Dense` does.
Fallible Go functions return `Except Err`; a Go runtime panic (slice index
out of range) is modelled by the distinguished constructor `Err.outOfRange`,
a wrapped provider error by `Err.provider`, and an error built by
`fmt.Errorf` for a dimension disagreement by `Err.dimension`.  The `eieio`
server, whose implementation lives outside this repository, is modelled as a
record of query functions (the spec's external collaborators of section 6).
-/

/-- `(l.get? i).getD 0`: reading entry `i` of a dense `float64` vector.  All
in-range accesses agree with Go; theorems only rely on in-range reads. -/
def vecAt (l : List ℚ) (i : ℕ) : ℚ := (l.get? i).getD 0

/-- Error values produced by `contribution.go`.  The source builds provider
errors (`errors.Wrap`/raw `err`), dimension errors (`fmt.Errorf` about a
length disagreement) and can hit a runtime index-out-of-range panic; it never
constructs any other error — in particular no division-by-zero error. -/
inductive Err where
  | provider (msg : String)
  | dimension (msg : String)
  | outOfRange (msg : String)
  deriving DecidableEq, Repr

/-- Row-major dense matrix with declared dimensions, mirroring
`gonum/mat.Dense` (`Dims` returns the stored sizes). -/
structure GoMat where
  r : ℕ
  c : ℕ
  data : List (List ℚ)
  deriving DecidableEq, Repr

/-- `mat.NewDense(r, c, nil)`: an `r × c` matrix of zeros. -/
def GoMat.newDense (r c : ℕ) : GoMat :=
  ⟨r, c, List.replicate r (List.replicate c 0)⟩

/-- `m.At(i, j)` for in-range `i`, `j` (Go panics out of range; theorems only
use in-range reads). -/
def GoMat.At (m : GoMat) (i j : ℕ) : ℚ :=
  vecAt ((m.data.get? i).getD []) j

/-- `m.Set(i, j, v)` for in-range `i`, `j` (out of range it is a no-op where
Go would panic; every `Set` performed by the embedded code is in range). -/
def GoMat.SetCell (m : GoMat) (i j : ℕ) (v : ℚ) : GoMat :=
  ⟨m.r, m.c, m.data.set i (((m.data.get? i).getD []).set j v)⟩

/-- The `eieio.Server` collaborator: the external query services used by
`contribution.go`, as in section 6 of the spec.  Demographs, demand vectors
and locations are opaque; they are modelled as `ℕ` tokens.  Years are `ℤ`
(`int32` in the source; no arithmetic overflows them here). -/
structure Server where
  /-- `s.SCCs`: the stable ordered sector list (entries opaque). -/
  SCCs : List ℕ
  /-- `s.IndustryToSCCMap`: industry index → list of sector indices. -/
  IndustryToSCCMap : List (List ℕ)
  /-- `s.CES.DemographicConsumption(year, dem).Data`. -/
  demographicConsumption : ℕ → ℤ → Except String (List ℚ)
  /-- `s.EmissionsMatrix(demand, year, loc)` (grid × SCC), after `rpc2mat`. -/
  emissionsMatrix : ℕ → ℤ → ℕ → Except String GoMat
  /-- `s.SpatialEIO.Concentrations(demand, pollutant, year, loc).Data`. -/
  concentrations : ℕ → ℤ → ℕ → Except String (List ℚ)
  /-- `s.Populations(ctx, nil).Names`. -/
  populationNames : Except String (List String)
  /-- `s.CSTConfig.PopulationIncidence(year, popName).GetPopulation()`. -/
  populationIncidence : ℤ → String → Except String (List ℚ)
  /-- `s.CES.TotalPopulationCount(dem, year)`. -/
  totalPopulationCount : ℕ → ℤ → Except String ℤ

/-- The inner loop of `getConsumptionBySCC` lines 51–53: for each `sccIdx` in
the industry's SCC list, `consumptionBySCC[sccIdx] += consumption`.  An
out-of-range sector index would panic in Go. -/
def addToSectors (acc : List ℚ) (v : ℚ) (sccs : List ℕ) : Except Err (List ℚ) :=
  match sccs with
  | [] => Except.ok acc
  | scc :: rest =>
    if scc < acc.length then
      addToSectors (acc.set scc (vecAt acc scc + v)) v rest
    else
      Except.error (Err.outOfRange "scc index out of range")

/-- The loop of `getConsumptionBySCC` lines 49–54:
`for industryIdx, consumption := range totalConsRPC.Data`, looking up
`s.IndustryToSCCMap[industryIdx]` (a panic when the index is past the end of
the map) and fanning the value out.  `start` is the current industry index. -/
def fanOutGo (mp : List (List ℕ)) : List ℚ → ℕ → List ℚ → Except Err (List ℚ)
  | [], _, acc => Except.ok acc
  | v :: rest, start, acc =>
    match mp.get? start with
    | none => Except.error (Err.outOfRange "industry index out of range")
    | some sccs =>
      match addToSectors acc v sccs with
      | Except.error e => Except.error e
      | Except.ok acc2 => fanOutGo mp rest (start + 1) acc2

/-- Lines 48–56 of `getConsumptionBySCC`: allocate `make([]float64,
len(s.SCCs))` and fan the data out over the industry→SCC map.  This is the
spec's `SectorAggregator.aggregate` as the source actually implements it:
note there is no input-length check anywhere. -/
def consumptionFanOut (mp : List (List ℕ)) (numSCC : ℕ) (data : List ℚ) :
    Except Err (List ℚ) :=
  fanOutGo mp data 0 (List.replicate numSCC 0)

/-- `getConsumptionBySCC` (lines 39–57): query demographic consumption and
collapse it from industry space to SCC space. -/
def getConsumptionBySCC (s : Server) (dem : ℕ) (year : ℤ) :
    Except Err (List ℚ) :=
  match s.demographicConsumption dem year with
  | Except.error msg => Except.error (Err.provider msg)
  | Except.ok data => consumptionFanOut s.IndustryToSCCMap s.SCCs.length data

/-- `getEmissionsBySCC` (lines 60–88): query the (grid × SCC) emissions
matrix, check its column count against `len(s.SCCs)`, then sum each sector's
column over all grid rows (`emis.ColView(sectorIdx)` summed with `AtVec`). -/
def getEmissionsBySCC (demand : ℕ) (s : Server) (year : ℤ) (loc : ℕ) :
    Except Err (List ℚ) :=
  match s.emissionsMatrix demand year loc with
  | Except.error msg => Except.error (Err.provider msg)
  | Except.ok emis =>
    if emis.c ≠ s.SCCs.length then
      Except.error (Err.dimension "expected emissions to have #SCC columns")
    else
      Except.ok ((List.range s.SCCs.length).map (fun sectorIdx =>
        ((List.range emis.r).map (fun i => emis.At i sectorIdx)).sum))

/-- The inner loop of `demAndEmissions` lines 106–110: fill row `demIdx` with
`consumption.At(sectorIdx, 0) * emis.At(sectorIdx, 0)` for every
`sectorIdx < consumption.Len()`.  (The `manualDot` accumulator of the source
is write-only and dropped here.) -/
def fillRow (m : GoMat) (demIdx : ℕ) (cons emis : List ℚ) : GoMat :=
  (List.range cons.length).foldl
    (fun a j => a.SetCell demIdx j (vecAt cons j * vecAt emis j)) m

/-- The outer loop of `demAndEmissions` lines 99–111: for each demographic,
fetch its consumption by SCC (any error aborts) and fill that row. -/
def demAndEmissionsGo (s : Server) (emis : List ℚ) (year : ℤ) :
    List ℕ → ℕ → GoMat → Except Err GoMat
  | [], _, m => Except.ok m
  | dem :: rest, demIdx, m =>
    match getConsumptionBySCC s dem year with
    | Except.error e => Except.error e
    | Except.ok consumption =>
      demAndEmissionsGo s emis year rest (demIdx + 1)
        (fillRow m demIdx consumption emis)

/-- Lines 98–113 of `demAndEmissions`, given the emissions-by-SCC vector:
allocate `mat.NewDense(len(dems), len(s.SCCs), nil)` and fill it row by
row.  This is the spec's `DemandEmissionsMatrixBuilder.build` body. -/
def demAndEmissionsCore (s : Server) (emis : List ℚ) (dems : List ℕ)
    (year : ℤ) : Except Err GoMat :=
  demAndEmissionsGo s emis year dems 0
    (GoMat.newDense dems.length s.SCCs.length)

/-- `demAndEmissions` (lines 92–114): emissions by SCC, then the
demographic × sector matrix, returned together with `s.SCCs`. -/
def demAndEmissions (s : Server) (demand : ℕ) (dems : List ℕ) (year : ℤ)
    (loc : ℕ) : Except Err (GoMat × List ℕ) :=
  match getEmissionsBySCC demand s year loc with
  | Except.error e => Except.error e
  | Except.ok emis =>
    match demAndEmissionsCore s emis dems year with
    | Except.error e => Except.error e
    | Except.ok m => Except.ok (m, s.SCCs)

/-- `populationAdjust` (lines 242–267).  Note two properties of the source,
both proved below: the population provider is queried with the literal year
2015 (`s.CES.TotalPopulationCount(dem, 2015)`, flagged `N: hardcoded year` in
the source) — the function takes no year parameter at all; and there is no
zero-population check — `float64(totalPop)/float64(popCounts[demIdx])` is an
IEEE division, which in Go yields `±Inf`/`NaN` rather than an error when the
count is zero.  In this `ℚ` model division by zero yields the junk value `0`;
no theorem below depends on the junk value itself, only on the facts (shared
by both semantics) that no error is produced and the cells are overwritten. -/
def populationAdjust (s : Server) (m : GoMat) (dems : List ℕ) :
    Except Err GoMat :=
  match dems.mapM (fun dem => s.totalPopulationCount dem 2015) with
  | Except.error e => Except.error (Err.provider e)
  | Except.ok popCounts =>
    if m.r ≠ dems.length then
      Except.error (Err.dimension "Expected emissions to have length of dem")
    else
      Except.ok ((List.range dems.length).foldl
        (fun a demIdx =>
          (List.range m.c).foldl
            (fun a2 j => a2.SetCell demIdx j
              (a2.At demIdx j *
                ((popCounts.sum : ℚ) / ((popCounts.getD demIdx 0 : ℤ) : ℚ))))
            a)
        m)

/-- Modelled from the spec (section 4.3 contract
`adjust(matrix, groups, populationProvider, year)`): identical to
`populationAdjust` except that the population provider is queried with the
`year` argument instead of the literal 2015.  Used only to state how the
source diverges from the contract. -/
def populationAdjustSpec (s : Server) (m : GoMat) (dems : List ℕ) (year : ℤ) :
    Except Err GoMat :=
  match dems.mapM (fun dem => s.totalPopulationCount dem year) with
  | Except.error e => Except.error (Err.provider e)
  | Except.ok popCounts =>
    if m.r ≠ dems.length then
      Except.error (Err.dimension "Expected emissions to have length of dem")
    else
      Except.ok ((List.range dems.length).foldl
        (fun a demIdx =>
          (List.range m.c).foldl
            (fun a2 j => a2.SetCell demIdx j
              (a2.At demIdx j *
                ((popCounts.sum : ℚ) / ((popCounts.getD demIdx 0 : ℤ) : ℚ))))
            a)
        m)

/-- The accumulation loop of `getExposureByPopulation` lines 162–170: for
each grid cell (index `g`) and each population group (kept in `popNames`
order), add `numIndividuals * concentrationAmt` to that group's running
exposure total.  (The parallel `popTotals` accumulator and the log calls are
diagnostic only and carry no result.) -/
def exposureGo (grids : List (List ℚ)) : List ℚ → ℕ → List ℚ → List ℚ
  | [], _, acc => acc
  | concAmt :: rest, g, acc =>
    exposureGo grids rest (g + 1)
      (List.zipWith (fun a grid => a + vecAt grid g * concAmt) acc grids)

/-- The per-group exposure totals computed (and then discarded) by
`getExposureByPopulation`: entry `p` is the exposure of the `p`-th population
name.  This is the spec's `ExposureCalculator.computeExposure` body. -/
def exposureAccum (grids : List (List ℚ)) (conc : List ℚ) : List ℚ :=
  exposureGo grids conc 0 (List.replicate grids.length 0)

/-- `getExposureByPopulation` (lines 116–177): query concentrations (the
source reads `vec.Data` before checking `err`; a failed query is modelled as
the provider error it would surface), list the population names, fetch each
group's population grid checking its length against the concentration grid,
accumulate the exposure totals — and then return `nil, nil`, discarding the
computed map (line 176). -/
def getExposureByPopulation (s : Server) (year : ℤ) (loc : ℕ) (demand : ℕ) :
    Except Err (Option (List (String × ℚ))) :=
  match s.concentrations demand year loc with
  | Except.error msg => Except.error (Err.provider msg)
  | Except.ok conc =>
    match s.populationNames with
    | Except.error msg => Except.error (Err.provider msg)
    | Except.ok popNames =>
      match popNames.mapM (fun popName =>
          match s.populationIncidence year popName with
          | Except.error msg => Except.error (Err.provider msg)
          | Except.ok pop =>
            if pop.length ≠ conc.length then
              Except.error
                (Err.dimension "expected len(population)=len(concentrations)")
            else
              Except.ok pop) with
      | Except.error e => Except.error e
      | Except.ok grids =>
        let exposures := exposureAccum grids conc
        -- lines 172–176: the totals are logged and the function returns
        -- `nil, nil`; `exposures` is dropped exactly as in the source.
        Except.ok none

/-- The error carried by a result, if any (used to state which error path a
computation took). -/
def errOf {α : Type} : Except Err α → Option Err
  | Except.ok _ => none
  | Except.error e => some e

/-- Whether a result is a dimension-disagreement error. -/
def isDimensionErr {α : Type} : Except Err α → Bool
  | Except.error (Err.dimension _) => true
  | _ => false

/-- A server whose group 0 has population count zero (and group 1 count 2),
for exercising `populationAdjust` on a zero population. -/
def srvZeroPop : Server where
  SCCs := []
  IndustryToSCCMap := []
  demographicConsumption := fun _ _ => Except.ok []
  emissionsMatrix := fun _ _ _ => Except.ok ⟨0, 0, []⟩
  concentrations := fun _ _ _ => Except.ok []
  populationNames := Except.ok []
  populationIncidence := fun _ _ => Except.ok []
  totalPopulationCount := fun dem _ => Except.ok (if dem = 0 then 0 else 2)

/-- A server whose population counts differ between 2015 and every other
year: counts `[1, 3]` in 2015, `[1, 1]` otherwise. -/
def srvYear : Server where
  SCCs := []
  IndustryToSCCMap := []
  demographicConsumption := fun _ _ => Except.ok []
  emissionsMatrix := fun _ _ _ => Except.ok ⟨0, 0, []⟩
  concentrations := fun _ _ _ => Except.ok []
  populationNames := Except.ok []
  populationIncidence := fun _ _ => Except.ok []
  totalPopulationCount := fun dem year =>
    Except.ok (if year = 2015 then (if dem = 0 then 1 else 3) else 1)

/-- The spec's end-to-end exposure scenario: 2 grid cells, concentration
`[5, 10]`, group `A` population `[100, 200]`, group `B` population
`[50, 50]`. -/
def srvExposure : Server where
  SCCs := []
  IndustryToSCCMap := []
  demographicConsumption := fun _ _ => Except.ok []
  emissionsMatrix := fun _ _ _ => Except.ok ⟨0, 0, []⟩
  concentrations := fun _ _ _ => Except.ok [5, 10]
  populationNames := Except.ok ["A", "B"]
  populationIncidence := fun _ nm =>
    Except.ok (if nm = "A" then [100, 200] else [50, 50])
  totalPopulationCount := fun _ _ => Except.ok 0

/-- One industry (mapping to the single sector 0), but a consumption data
vector of length 0: the lengths disagree. -/
def srvShort : Server where
  SCCs := [7]
  IndustryToSCCMap := [[0]]
  demographicConsumption := fun _ _ => Except.ok []
  emissionsMatrix := fun _ _ _ => Except.ok ⟨0, 0, []⟩
  concentrations := fun _ _ _ => Except.ok []
  populationNames := Except.ok []
  populationIncidence := fun _ _ => Except.ok []
  totalPopulationCount := fun _ _ => Except.ok 0

/-- One industry, but a consumption data vector of length 2: the loop runs
past the end of the industry→SCC map. -/
def srvLong : Server where
  SCCs := [7]
  IndustryToSCCMap := [[0]]
  demographicConsumption := fun _ _ => Except.ok [1, 1]
  emissionsMatrix := fun _ _ _ => Except.ok ⟨0, 0, []⟩
  concentrations := fun _ _ _ => Except.ok []
  populationNames := Except.ok []
  populationIncidence := fun _ _ => Except.ok []
  totalPopulationCount := fun _ _ => Except.ok 0

/-- Two sectors, a fanning industry→SCC map (`industry 0 ↦ {0, 1}`), and a
1 × 2 (grid × SCC) emissions matrix `[[1, 0]]`. -/
def srvEmisFan : Server where
  SCCs := [101, 102]
  IndustryToSCCMap := [[0, 1], []]
  demographicConsumption := fun _ _ => Except.ok []
  emissionsMatrix := fun _ _ _ => Except.ok ⟨1, 2, [[1, 0]]⟩
  concentrations := fun _ _ _ => Except.ok []
  populationNames := Except.ok []
  populationIncidence := fun _ _ => Except.ok []
  totalPopulationCount := fun _ _ => Except.ok 0

/-- The spec's end-to-end matrix scenario: two sectors under the identity
industry→SCC mapping, consumption `[1, 1]` for group 0 and `[3, 1]` for
group 1. -/
def srvHadamard : Server where
  SCCs := [101, 102]
  IndustryToSCCMap := [[0], [1]]
  demographicConsumption := fun dem _ =>
    Except.ok (if dem = 0 then [1, 1] else [3, 1])
  emissionsMatrix := fun _ _ _ => Except.ok ⟨0, 0, []⟩
  concentrations := fun _ _ _ => Except.ok []
  populationNames := Except.ok []
  populationIncidence := fun _ _ => Except.ok []
  totalPopulationCount := fun _ _ => Except.ok 0

/-! ## List helper lemmas -/

theorem vecAt_nil (i : ℕ) : vecAt [] i = 0 := by
  cases i <;> rfl

theorem vecAt_cons_zero (x : ℚ) (l : List ℚ) : vecAt (x :: l) 0 = x := rfl

theorem vecAt_cons_succ (x : ℚ) (l : List ℚ) (i : ℕ) :
    vecAt (x :: l) (i + 1) = vecAt l i := rfl

theorem vecAt_replicate_zero (n i : ℕ) : vecAt (List.replicate n 0) i = 0 := by
  simp only [vecAt, List.get?_eq_getElem?, List.getElem?_replicate]
  split <;> rfl

theorem vecAt_nonneg {data : List ℚ} (h : ∀ x ∈ data, 0 ≤ x) (k : ℕ) :
    0 ≤ vecAt data k := by
  unfold vecAt
  cases hk : data.get? k with
  | none => simp
  | some v => simpa using h v (List.get?_mem hk)

theorem get?_set_self {α : Type} {l : List α} {i : ℕ} (a : α)
    (h : i < l.length) : (l.set i a).get? i = some a := by
  simp [List.get?_eq_getElem?, List.getElem?_set, h]

theorem get?_set_ne {α : Type} (l : List α) {i j : ℕ} (a : α) (h : i ≠ j) :
    (l.set i a).get? j = l.get? j := by
  simp [List.get?_eq_getElem?, List.getElem?_set, h]

theorem vecAt_set_self {l : List ℚ} {i : ℕ} (a : ℚ) (h : i < l.length) :
    vecAt (l.set i a) i = a := by
  simp [vecAt, List.get?_eq_getElem?, List.getElem?_set, h]

theorem vecAt_set_ne (l : List ℚ) {i j : ℕ} (a : ℚ) (h : i ≠ j) :
    vecAt (l.set i a) j = vecAt l j := by
  simp [vecAt, List.get?_eq_getElem?, List.getElem?_set, h]

theorem set_get?_getD_self {α : Type} (l : List α) (i : ℕ) (d : α) :
    l.set i ((l.get? i).getD d) = l := by
  induction l generalizing i with
  | nil => rfl
  | cons x t ih =>
    cases i with
    | zero => rfl
    | succ n => simpa using ih n

theorem getD_eq_get?_getD {α : Type} (l : List α) (i : ℕ) (d : α) :
    l.getD i d = (l.get? i).getD d := by
  simp [List.getD_eq_getElem?_getD, List.get?_eq_getElem?]

theorem length_foldl_set {α : Type} (L : List ℕ) (w : ℕ → α) :
    ∀ l : List α, (L.foldl (fun r j => r.set j (w j)) l).length = l.length := by
  induction L with
  | nil => intro l; rfl
  | cons j L ih => intro l; simpa [List.foldl_cons] using (ih (l.set j (w j))).trans (by simp)

theorem get?_foldl_range_set {α : Type} (w : ℕ → α) :
    ∀ (n : ℕ) (l : List α) (j : ℕ),
      ((List.range n).foldl (fun r i => r.set i (w i)) l).get? j =
        if j < n ∧ j < l.length then some (w j) else l.get? j := by
  intro n
  induction n with
  | zero => intro l j; simp
  | succ n ih =>
    intro l j
    rw [List.range_succ, List.foldl_append]
    simp only [List.foldl_cons, List.foldl_nil]
    by_cases hjn : j = n
    · subst hjn
      by_cases hl : j < l.length
      · rw [get?_set_self (w j) (by rwa [length_foldl_set])]
        simp [hl]
      · rw [List.set_eq_of_length_le (by rw [length_foldl_set]; omega), ih]
        have hjl : ¬ j < l.length := hl
        simp only [hjl, and_false, if_false]
    · rw [get?_set_ne _ _ (fun h => hjn h.symm), ih]
      by_cases hj : j < n
      · simp only [hj, true_and]
        have : j < n + 1 := by omega
        simp only [this, true_and]
      · have h1 : ¬ (j < n + 1) := by omega
        simp [hj, h1]

theorem foldl_range_set_eq_map {α : Type} (w : ℕ → α) {n : ℕ} {l : List α}
    (h : l.length = n) :
    (List.range n).foldl (fun r i => r.set i (w i)) l = (List.range n).map w := by
  apply List.ext_get?
  intro j
  rw [get?_foldl_range_set, List.get?_eq_getElem?, List.get?_eq_getElem?,
    List.getElem?_map]
  by_cases hj : j < n
  · simp [hj, h, List.getElem?_range hj]
  · have h1 : (List.range n)[j]? = none := by
      simp [List.getElem?_eq_none_iff]; omega
    have h2 : l[j]? = none := by
      simp [List.getElem?_eq_none_iff]; omega
    simp [hj, h1, h2]

theorem sum_map_range (f : ℕ → ℚ) :
    ∀ n : ℕ, ((List.range n).map f).sum = ∑ i ∈ Finset.range n, f i := by
  intro n
  induction n with
  | zero => simp
  | succ n ih =>
    rw [List.range_succ, List.map_append, List.sum_append, Finset.sum_range_succ, ih]
    simp

theorem sum_range_vecAt :
    ∀ l : List ℚ, (∑ i ∈ Finset.range l.length, vecAt l i) = l.sum := by
  intro l
  induction l with
  | nil => simp
  | cons x t ih =>
    rw [List.length_cons, Finset.sum_range_succ']
    simp only [vecAt_cons_succ, vecAt_cons_zero, ih, List.sum_cons]
    ring

theorem list_eq_map_vecAt :
    ∀ l : List ℚ, (List.range l.length).map (fun i => vecAt l i) = l := by
  intro l
  induction l with
  | nil => simp
  | cons x t ih =>
    rw [List.length_cons, List.range_succ_eq_map, List.map_cons, List.map_map]
    refine congrArg₂ List.cons rfl ?_
    rw [show ((fun i => vecAt (x :: t) i) ∘ Nat.succ) = fun i => vecAt t i from
      funext (fun i => vecAt_cons_succ x t i)]
    exact ih

theorem vecAt_map_range {f : ℕ → ℚ} {n t : ℕ} (h : t < n) :
    vecAt ((List.range n).map f) t = f t := by
  simp [vecAt, List.get?_eq_getElem?, List.getElem?_map, List.getElem?_range h]

theorem zipWith_congr_fun {α β γ : Type} {f g : α → β → γ}
    (h : ∀ a b, f a b = g a b) :
    ∀ (l1 : List α) (l2 : List β), List.zipWith f l1 l2 = List.zipWith g l1 l2 := by
  intro l1
  induction l1 with
  | nil => intro l2; simp
  | cons x t ih =>
    intro l2
    cases l2 with
    | nil => simp
    | cons y u => simp [h, ih]

/-! ## Fan-out (`getConsumptionBySCC`) lemmas -/

theorem addToSectors_spec :
    ∀ (sccs : List ℕ) (acc : List ℚ) (v : ℚ),
      (∀ x ∈ sccs, x < acc.length) →
      addToSectors acc v sccs =
        Except.ok ((List.range acc.length).map
          (fun t => vecAt acc t + v * (sccs.count t : ℚ))) := by
  intro sccs
  induction sccs with
  | nil =>
    intro acc v _
    simp only [addToSectors, List.count_nil, Nat.cast_zero, mul_zero, add_zero]
    rw [list_eq_map_vecAt]
  | cons s0 rest ih =>
    intro acc v h
    have hs0 : s0 < acc.length := h s0 (by simp)
    rw [addToSectors, if_pos hs0,
      ih (acc.set s0 (vecAt acc s0 + v)) v
        (fun x hx => by rw [List.length_set]; exact h x (by simp [hx]))]
    refine congrArg Except.ok ?_
    rw [List.length_set]
    refine List.map_congr_left (fun t ht => ?_)
    have ht' : t < acc.length := by simpa using List.mem_range.mp ht
    rw [List.count_cons]
    by_cases hts : t = s0
    · subst hts
      rw [vecAt_set_self _ ht']
      simp only [beq_self_eq_true, if_true]
      push_cast
      ring
    · rw [vecAt_set_ne _ _ (fun hh => hts hh.symm)]
      have : (s0 == t) = false := by simpa using fun hh => hts hh.symm
      simp only [this, Bool.false_eq_true, if_false, Nat.add_zero]

theorem addToSectors_sum :
    ∀ (sccs : List ℕ) (acc : List ℚ) (v : ℚ),
      (∀ x ∈ sccs, x < acc.length) →
      ∃ acc2, addToSectors acc v sccs = Except.ok acc2 ∧
        acc2.sum = acc.sum + v * (sccs.length : ℚ) ∧
        acc2.length = acc.length := by
  intro sccs
  induction sccs with
  | nil => intro acc v _; exact ⟨acc, rfl, by simp, rfl⟩
  | cons s0 rest ih =>
    intro acc v h
    have hs0 : s0 < acc.length := h s0 (by simp)
    have hsum : (acc.set s0 (vecAt acc s0 + v)).sum = acc.sum + v := by
      clear h ih
      induction acc generalizing s0 with
      | nil => simp at hs0
      | cons x t iht =>
        cases s0 with
        | zero => simp [vecAt_cons_zero]; ring
        | succ n =>
          have hn : n < t.length := by simpa using hs0
          simp only [List.set_cons_succ, List.sum_cons, vecAt_cons_succ,
            iht n hn]
          ring
    obtain ⟨acc2, h1, h2, h3⟩ :=
      ih (acc.set s0 (vecAt acc s0 + v)) v
        (fun x hx => by rw [List.length_set]; exact h x (by simp [hx]))
    refine ⟨acc2, ?_, ?_, ?_⟩
    · rw [addToSectors, if_pos hs0, h1]
    · rw [h2, hsum, List.length_cons]
      push_cast
      ring
    · rw [h3, List.length_set]

theorem addToSectors_no_dim :
    ∀ (sccs : List ℕ) (acc : List ℚ) (v : ℚ) (msg : String),
      addToSectors acc v sccs ≠ Except.error (Err.dimension msg) := by
  intro sccs
  induction sccs with
  | nil => intro acc v msg; simp [addToSectors]
  | cons s0 rest ih =>
    intro acc v msg
    rw [addToSectors]
    by_cases hs0 : s0 < acc.length
    · rw [if_pos hs0]; exact ih _ v msg
    · rw [if_neg hs0]; simp

theorem fanOutGo_spec (mp : List (List ℕ)) :
    ∀ (data : List ℚ) (start : ℕ) (acc : List ℚ),
      start + data.length ≤ mp.length →
      (∀ l ∈ mp, ∀ x ∈ l, x < acc.length) →
      fanOutGo mp data start acc =
        Except.ok ((List.range acc.length).map
          (fun t => vecAt acc t +
            ∑ k ∈ Finset.range data.length,
              vecAt data k * (((mp.getD (start + k) []).count t : ℕ) : ℚ))) := by
  intro data
  induction data with
  | nil =>
    intro start acc _ _
    simp only [fanOutGo, List.length_nil, Finset.range_zero, Finset.sum_empty,
      add_zero]
    rw [list_eq_map_vecAt]
  | cons v rest ih =>
    intro start acc hin hvalid
    have hstart : start < mp.length := by
      simp only [List.length_cons] at hin; omega
    obtain ⟨sccs, hsccs⟩ : ∃ sccs, mp.get? start = some sccs := by
      rw [List.get?_eq_getElem?]
      exact ⟨mp[start], List.getElem?_eq_getElem hstart⟩
    have hmem : sccs ∈ mp := List.get?_mem hsccs
    have hv : ∀ x ∈ sccs, x < acc.length := hvalid sccs hmem
    rw [fanOutGo, hsccs]
    simp only
    rw [addToSectors_spec sccs acc v hv]
    simp only
    set acc2 := (List.range acc.length).map
      (fun t => vecAt acc t + v * (sccs.count t : ℚ)) with hacc2
    have hlen2 : acc2.length = acc.length := by
      rw [hacc2, List.length_map, List.length_range]
    rw [ih (start + 1) acc2
      (by simp only [List.length_cons] at hin; omega)
      (fun l hl x hx => hlen2 ▸ hvalid l hl x hx)]
    refine congrArg Except.ok ?_
    rw [hlen2]
    refine List.map_congr_left (fun t ht => ?_)
    have ht' : t < acc.length := by simpa using List.mem_range.mp ht
    rw [vecAt_map_range ht']
    have hgetD : mp.getD start [] = sccs := by
      rw [getD_eq_get?_getD, hsccs]; rfl
    rw [List.length_cons, Finset.sum_range_succ']
    have hshift : ∀ k, vecAt (v :: rest) (k + 1) *
        (((mp.getD (start + (k + 1)) []).count t : ℕ) : ℚ) =
        vecAt rest k * (((mp.getD (start + 1 + k) []).count t : ℕ) : ℚ) := by
      intro k
      rw [vecAt_cons_succ]
      have : start + (k + 1) = start + 1 + k := by omega
      rw [this]
    simp only [hshift, vecAt_cons_zero, Nat.add_zero, hgetD]
    ring

theorem fanOutGo_sum (mp : List (List ℕ)) :
    ∀ (data : List ℚ) (start : ℕ) (acc : List ℚ),
      start + data.length ≤ mp.length →
      (∀ l ∈ mp, ∀ x ∈ l, x < acc.length) →
      ∃ res, fanOutGo mp data start acc = Except.ok res ∧
        res.sum = acc.sum +
          ∑ k ∈ Finset.range data.length,
            vecAt data k * ((mp.getD (start + k) []).length : ℚ) := by
  intro data
  induction data with
  | nil => intro start acc _ _; exact ⟨acc, rfl, by simp⟩
  | cons v rest ih =>
    intro start acc hin hvalid
    have hstart : start < mp.length := by
      simp only [List.length_cons] at hin; omega
    obtain ⟨sccs, hsccs⟩ : ∃ sccs, mp.get? start = some sccs := by
      rw [List.get?_eq_getElem?]
      exact ⟨mp[start], List.getElem?_eq_getElem hstart⟩
    have hmem : sccs ∈ mp := List.get?_mem hsccs
    obtain ⟨acc2, h1, h2, h3⟩ := addToSectors_sum sccs acc v (hvalid sccs hmem)
    obtain ⟨res, hr1, hr2⟩ := ih (start + 1) acc2
      (by simp only [List.length_cons] at hin; omega)
      (fun l hl x hx => h3 ▸ hvalid l hl x hx)
    refine ⟨res, ?_, ?_⟩
    · rw [fanOutGo, hsccs]
      simp only
      rw [h1]
      exact hr1
    · have hgetD : mp.getD start [] = sccs := by
        rw [getD_eq_get?_getD, hsccs]; rfl
      rw [hr2, h2, List.length_cons, Finset.sum_range_succ']
      have hshift : ∀ k, vecAt (v :: rest) (k + 1) *
          ((mp.getD (start + (k + 1)) []).length : ℚ) =
          vecAt rest k * ((mp.getD (start + 1 + k) []).length : ℚ) := by
        intro k
        rw [vecAt_cons_succ]
        have : start + (k + 1) = start + 1 + k := by omega
        rw [this]
      simp only [hshift, vecAt_cons_zero, Nat.add_zero, hgetD]
      ring

theorem fanOutGo_no_dim (mp : List (List ℕ)) :
    ∀ (data : List ℚ) (start : ℕ) (acc : List ℚ) (msg : String),
      fanOutGo mp data start acc ≠ Except.error (Err.dimension msg) := by
  intro data
  induction data with
  | nil => intro start acc msg; simp [fanOutGo]
  | cons v rest ih =>
    intro start acc msg
    rw [fanOutGo]
    cases hg : mp.get? start with
    | none => simp
    | some sccs =>
      simp only
      cases ha : addToSectors acc v sccs with
      | error e =>
        simp only
        intro hcontra
        exact addToSectors_no_dim sccs acc v msg (by rw [ha, ← hcontra])
      | ok acc2 => exact ih (start + 1) acc2 msg

theorem addToSectors_length :
    ∀ (sccs : List ℕ) (acc : List ℚ) (v : ℚ) (res : List ℚ),
      addToSectors acc v sccs = Except.ok res → res.length = acc.length := by
  intro sccs
  induction sccs with
  | nil =>
    intro acc v res h
    simp only [addToSectors] at h
    cases h
    rfl
  | cons s0 rest ih =>
    intro acc v res h
    rw [addToSectors] at h
    by_cases hs0 : s0 < acc.length
    · rw [if_pos hs0] at h
      exact (ih _ v res h).trans (List.length_set _ _ _)
    · rw [if_neg hs0] at h
      cases h

theorem fanOutGo_length (mp : List (List ℕ)) :
    ∀ (data : List ℚ) (start : ℕ) (acc res : List ℚ),
      fanOutGo mp data start acc = Except.ok res → res.length = acc.length := by
  intro data
  induction data with
  | nil =>
    intro start acc res h
    simp only [fanOutGo] at h
    cases h
    rfl
  | cons v rest ih =>
    intro start acc res h
    rw [fanOutGo] at h
    cases hg : mp.get? start with
    | none => rw [hg] at h; cases h
    | some sccs =>
      rw [hg] at h
      simp only at h
      cases ha : addToSectors acc v sccs with
      | error e => rw [ha] at h; cases h
      | ok acc2 =>
        rw [ha] at h
        simp only at h
        exact (ih (start + 1) acc2 res h).trans (addToSectors_length sccs acc v acc2 ha)

/-! ## Matrix builder (`demAndEmissions`) lemmas -/

theorem getConsumptionBySCC_length {s : Server} {dem : ℕ} {year : ℤ}
    {v : List ℚ} (h : getConsumptionBySCC s dem year = Except.ok v) :
    v.length = s.SCCs.length := by
  rw [getConsumptionBySCC] at h
  cases hd : s.demographicConsumption dem year with
  | error msg => rw [hd] at h; cases h
  | ok data =>
    rw [hd] at h
    simp only [consumptionFanOut] at h
    exact (fanOutGo_length s.IndustryToSCCMap data 0 _ v h).trans
      (List.length_replicate _ _)

theorem matrix_row_fold (w : ℕ → ℚ) :
    ∀ (L : List ℕ) (m : GoMat) (i : ℕ),
      L.foldl (fun a j => a.SetCell i j (w j)) m =
        ⟨m.r, m.c, m.data.set i
          (L.foldl (fun row j => row.set j (w j)) ((m.data.get? i).getD []))⟩ := by
  intro L
  induction L with
  | nil =>
    intro m i
    rw [List.foldl_nil, List.foldl_nil, set_get?_getD_self]
  | cons j L ih =>
    intro m i
    rw [List.foldl_cons, List.foldl_cons, ih]
    by_cases hi : i < m.data.length
    · simp only [GoMat.SetCell, get?_set_self _ hi, Option.getD_some,
        List.set_set]
    · push_neg at hi
      simp only [GoMat.SetCell, List.set_eq_of_length_le hi]

theorem fillRow_eq {m : GoMat} {demIdx : ℕ} {cons emis : List ℚ}
    (hlen : cons.length = m.c)
    (hrow : ((m.data.get? demIdx).getD []).length = m.c) :
    fillRow m demIdx cons emis =
      ⟨m.r, m.c, m.data.set demIdx
        ((List.range m.c).map (fun j => vecAt cons j * vecAt emis j))⟩ := by
  rw [fillRow, matrix_row_fold, hlen,
    foldl_range_set_eq_map _ hrow]

theorem demGo_spec (s : Server) (emis : List ℚ) (year : ℤ) :
    ∀ (dems : List ℕ) (demIdx : ℕ) (m : GoMat) (cons : ℕ → List ℚ),
      (∀ k, ∀ hk : k < dems.length,
        getConsumptionBySCC s (dems.get ⟨k, hk⟩) year = Except.ok (cons k)) →
      (∀ k, k < dems.length → (cons k).length = m.c) →
      (∀ row ∈ m.data, row.length = m.c) →
      demIdx + dems.length ≤ m.data.length →
      demAndEmissionsGo s emis year dems demIdx m =
        Except.ok ⟨m.r, m.c,
          (List.range dems.length).foldl
            (fun d k => d.set (demIdx + k)
              ((List.range m.c).map
                (fun j => vecAt (cons k) j * vecAt emis j)))
            m.data⟩ := by
  intro dems
  induction dems with
  | nil =>
    intro demIdx m cons _ _ _ _
    simp only [demAndEmissionsGo, List.length_nil, List.range_zero,
      List.foldl_nil]
  | cons dem rest ih =>
    intro demIdx m cons hok hclen hwf hin
    have hok0 := hok 0 (by simp)
    simp only [List.get] at hok0
    have hi : demIdx < m.data.length := by
      simp only [List.length_cons] at hin; omega
    obtain ⟨row, hrowget⟩ : ∃ row, m.data.get? demIdx = some row := by
      rw [List.get?_eq_getElem?]
      exact ⟨m.data[demIdx], List.getElem?_eq_getElem hi⟩
    have hrowlen : ((m.data.get? demIdx).getD []).length = m.c := by
      rw [hrowget]
      exact hwf row (List.get?_mem hrowget)
    rw [demAndEmissionsGo, hok0]
    simp only
    rw [fillRow_eq (hclen 0 (by simp)) hrowlen]
    set newRow0 := (List.range m.c).map
      (fun j => vecAt (cons 0) j * vecAt emis j) with hnew0
    have hdata2 : ∀ r2 ∈ m.data.set demIdx newRow0, r2.length = m.c := by
      intro r2 hr2
      rcases List.mem_or_eq_of_mem_set hr2 with h2 | h2
      · exact hwf r2 h2
      · rw [h2, hnew0, List.length_map, List.length_range]
    rw [ih (demIdx + 1) ⟨m.r, m.c, m.data.set demIdx newRow0⟩
      (fun k => cons (k + 1))
      (fun k hk => hok (k + 1) (by simp; omega))
      (fun k hk => hclen (k + 1) (by simp; omega))
      hdata2
      (by simp only [List.length_set]; simp only [List.length_cons] at hin; omega)]
    refine congrArg Except.ok ?_
    simp only [List.length_cons, List.range_succ_eq_map, List.foldl_cons,
      List.foldl_map, Nat.add_zero, Nat.succ_eq_add_one]
    refine congrArg (GoMat.mk m.r m.c) ?_
    have hfun :
        (fun (d : List (List ℚ)) (k : ℕ) => d.set (demIdx + (k + 1))
          ((List.range m.c).map
            (fun j => vecAt (cons (k + 1)) j * vecAt emis j)))
        = (fun (d : List (List ℚ)) (k : ℕ) => d.set (demIdx + 1 + k)
          ((List.range m.c).map
            (fun j => vecAt (cons (k + 1)) j * vecAt emis j))) := by
      funext d k
      have harith : demIdx + (k + 1) = demIdx + 1 + k := by omega
      rw [harith]
    rw [hfun]

/-! ## Exposure lemmas -/

theorem exposureGo_linear (grids : List (List ℚ)) (k : ℚ) :
    ∀ (conc : List ℚ) (g : ℕ) (acc : List ℚ),
      exposureGo grids (conc.map (fun x => k * x)) g
          (acc.map (fun x => k * x)) =
        (exposureGo grids conc g acc).map (fun x => k * x) := by
  intro conc
  induction conc with
  | nil => intro g acc; simp [exposureGo]
  | cons c rest ih =>
    intro g acc
    simp only [List.map_cons, exposureGo]
    rw [← ih (g + 1)]
    refine congrArg (exposureGo grids (rest.map (fun x => k * x)) (g + 1)) ?_
    rw [List.zipWith_map_left, List.map_zipWith]
    exact zipWith_congr_fun (fun a b => by ring) acc grids

theorem getD_mem {α : Type} {l : List α} {i : ℕ} (h : i < l.length) (d : α) :
    l.getD i d ∈ l := by
  rw [getD_eq_get?_getD, List.get?_eq_getElem?, List.getElem?_eq_getElem h]
  exact List.getElem_mem h

/-! ## Claims -/

/-- C10: when the matrix row count differs from the number of groups (and the
population queries succeed — they are all performed first), `populationAdjust`
returns the dimension-mismatch error before any cell is written: the error
result carries no modified matrix, so the caller's matrix is untouched. -/
theorem C10_rowcount_check (s : Server) (m : GoMat) (dems : List ℕ)
    (counts : List ℤ)
    (h1 : dems.mapM (fun dem => s.totalPopulationCount dem 2015) =
      Except.ok counts)
    (h2 : m.r ≠ dems.length) :
    populationAdjust s m dems =
      Except.error (Err.dimension "Expected emissions to have length of dem") := by
  rw [populationAdjust, h1]
  simp only [if_pos h2]

/-- C10 witness: a 1 × 1 matrix against two groups trips the row-count check
on `srvYear` (whose queries all succeed with counts `[1, 3]`). -/
theorem C10_rowcount_check_witness :
    ([0, 1] : List ℕ).mapM
        (fun dem => srvYear.totalPopulationCount dem 2015) =
      Except.ok [1, 3] ∧
    (⟨1, 1, [[1]]⟩ : GoMat).r ≠ ([0, 1] : List ℕ).length ∧
    populationAdjust srvYear ⟨1, 1, [[1]]⟩ [0, 1] =
      Except.error (Err.dimension "Expected emissions to have length of dem") :=
  ⟨rfl, by decide,
    C10_rowcount_check srvYear ⟨1, 1, [[1]]⟩ [0, 1] [1, 3] rfl (by decide)⟩

/-- C1 counterexample: with group populations `[0, 2]` and matrix
`[[1], [1]]`, `populationAdjust` does NOT fail — it has no zero-population
check and no division-by-zero error path — and it does modify the matrix:
cell (0,0) is overwritten (with `1 * (2/0)`; IEEE `+Inf` in Go, the junk
value `0` in this `ℚ` model — in either semantics the cell no longer holds
its original value 1, and no error of any kind is returned). -/
theorem C1_zero_pop_counterexample :
    (populationAdjust srvZeroPop ⟨2, 1, [[1], [1]]⟩ [0, 1]).toOption.isSome
        = true ∧
    ((populationAdjust srvZeroPop ⟨2, 1, [[1], [1]]⟩ [0, 1]).toOption.getD
        (GoMat.newDense 0 0)).At 0 0 ≠ (1 : ℚ) := by
  have hmap : ([0, 1] : List ℕ).mapM
      (fun dem => srvZeroPop.totalPopulationCount dem 2015) =
      Except.ok [0, 2] := rfl
  rw [populationAdjust, hmap]
  norm_num [srvZeroPop, show List.range 2 = [0, 1] from rfl,
    show List.range 1 = [0] from rfl, GoMat.SetCell, GoMat.At,
    GoMat.newDense, vecAt, Except.toOption]

/-- C1 (amended): if every population query succeeds and the row count
matches, `populationAdjust` succeeds even when some group's population count
is zero — the source performs no zero-population check, has no
division-by-zero error path, and proceeds to rescale every cell. -/
theorem C1_zero_pop_amended (s : Server) (m : GoMat) (dems : List ℕ)
    (counts : List ℤ)
    (h1 : dems.mapM (fun dem => s.totalPopulationCount dem 2015) =
      Except.ok counts)
    (hz : (0 : ℤ) ∈ counts)
    (h3 : m.r = dems.length) :
    (populationAdjust s m dems).toOption.isSome = true := by
  rw [populationAdjust, h1]
  simp only [h3, ne_eq, not_true_eq_false, if_false, Except.toOption,
    Option.isSome_some]

/-- C1 amended witness: the zero-population scenario of the counterexample
satisfies every hypothesis and the adjustment indeed succeeds. -/
theorem C1_zero_pop_amended_witness :
    ([0, 1] : List ℕ).mapM
        (fun dem => srvZeroPop.totalPopulationCount dem 2015) =
      Except.ok [0, 2] ∧
    (0 : ℤ) ∈ ([0, 2] : List ℤ) ∧
    (⟨2, 1, [[1], [1]]⟩ : GoMat).r = ([0, 1] : List ℕ).length ∧
    (populationAdjust srvZeroPop ⟨2, 1, [[1], [1]]⟩ [0, 1]).toOption.isSome
      = true :=
  ⟨rfl, by decide, by decide,
    C1_zero_pop_amended srvZeroPop ⟨2, 1, [[1], [1]]⟩ [0, 1] [0, 2] rfl
      (by decide) (by decide)⟩

/-- C3: `populationAdjust` takes no year parameter and always queries the
population provider with the literal 2015 (flagged `N: hardcoded year` in the
source).  On a provider whose counts differ between 2015 (`[1, 3]`) and 2003
(`[1, 1]`), the source function agrees with the spec's year-taking contract
instantiated at 2015 and disagrees with it at 2003: the spec says the counts
for the given year are used, the code uses the 2015 counts. -/
theorem C3_hardcoded_year :
    (populationAdjust srvYear ⟨2, 1, [[1], [1]]⟩ [0, 1]).toOption =
      (populationAdjustSpec srvYear ⟨2, 1, [[1], [1]]⟩ [0, 1] 2015).toOption ∧
    (populationAdjust srvYear ⟨2, 1, [[1], [1]]⟩ [0, 1]).toOption =
      some ⟨2, 1, [[4], [4 / 3]]⟩ ∧
    (populationAdjustSpec srvYear ⟨2, 1, [[1], [1]]⟩ [0, 1] 2003).toOption =
      some ⟨2, 1, [[2], [2]]⟩ := by
  have hmap15 : ([0, 1] : List ℕ).mapM
      (fun dem => srvYear.totalPopulationCount dem 2015) =
      Except.ok [1, 3] := rfl
  have hmap03 : ([0, 1] : List ℕ).mapM
      (fun dem => srvYear.totalPopulationCount dem 2003) =
      Except.ok [1, 1] := rfl
  refine ⟨?_, ?_, ?_⟩
  · rw [populationAdjust, populationAdjustSpec, hmap15]
  · rw [populationAdjust, hmap15]
    norm_num [show List.range 2 = [0, 1] from rfl,
      show List.range 1 = [0] from rfl, GoMat.SetCell, GoMat.At,
      vecAt, Except.toOption]
  · rw [populationAdjustSpec, hmap03]
    norm_num [show List.range 2 = [0, 1] from rfl,
      show List.range 1 = [0] from rfl, GoMat.SetCell, GoMat.At,
      vecAt, Except.toOption]

/-- C2: on the spec's end-to-end exposure scenario (concentration `[5, 10]`,
group A population `[100, 200]`, group B population `[50, 50]`) the exposure
totals the code computes internally are `[2500, 750]` for `[A, B]` exactly as
the claim states — but `getExposureByPopulation` then returns `nil, nil`
(line 176), so the mapping is never returned to the caller: the function's
result is `ok none`, not the computed map. -/
theorem C2_exposure_computed_but_dropped :
    exposureAccum [[100, 200], [50, 50]] [5, 10] = [2500, 750] ∧
    (getExposureByPopulation srvExposure 2015 0 0).toOption = some none := by
  constructor
  · norm_num [exposureAccum, exposureGo, vecAt,
      show List.replicate 2 (0 : ℚ) = [0, 0] from rfl]
  · rfl

/-- C4 counterexample: `getConsumptionBySCC` has no input-length check.  On
`srvShort` the data vector (length 0) is shorter than the industry map
(length 1) yet the call succeeds, silently producing the zero vector; on
`srvLong` the data vector (length 2) is longer than the map (length 1) and
the call aborts with the modelled index-out-of-range panic — in neither case
is a `DimensionMismatch` error produced. -/
theorem C4_no_length_check_counterexample :
    ((getConsumptionBySCC srvShort 0 2015).toOption = some [0] ∧
      ([] : List ℚ).length ≠ srvShort.IndustryToSCCMap.length) ∧
    (errOf (getConsumptionBySCC srvLong 0 2015) =
        some (Err.outOfRange "industry index out of range") ∧
      ([1, 1] : List ℚ).length ≠ srvLong.IndustryToSCCMap.length) := by
  refine ⟨⟨rfl, by simp [srvShort]⟩, ⟨?_, by simp [srvLong]⟩⟩
  norm_num [getConsumptionBySCC, srvLong, consumptionFanOut, fanOutGo,
    addToSectors, vecAt, errOf]

/-- C4 (amended): `getConsumptionBySCC` never returns a dimension-mismatch
error for any input whatsoever — the source performs no length comparison;
a too-short data vector is processed silently and a too-long one hits an
index-out-of-range runtime panic instead. -/
theorem C4_no_dimension_error (s : Server) (dem : ℕ) (year : ℤ) :
    isDimensionErr (getConsumptionBySCC s dem year) = false := by
  rw [getConsumptionBySCC]
  cases hd : s.demographicConsumption dem year with
  | error msg => rfl
  | ok data =>
    simp only [consumptionFanOut]
    cases hf : fanOutGo s.IndustryToSCCMap data 0
        (List.replicate s.SCCs.length 0) with
    | ok v => rfl
    | error e =>
      cases e with
      | provider m2 => rfl
      | outOfRange m2 => rfl
      | dimension m2 =>
        exact absurd hf (fanOutGo_no_dim s.IndustryToSCCMap data 0 _ m2)

/-- C5 counterexample: the emissions-by-SCC vector is not produced by the
SectorAggregator fan-out.  On `srvEmisFan` (one grid row `[1, 0]`, map
`industry 0 ↦ {0, 1}`), `getEmissionsBySCC` returns the column sums `[1, 0]`
while the fan-out over the industry→SCC map applied to the same vector
returns `[1, 1]`: the two operations disagree. -/
theorem C5_emis_not_fanout_counterexample :
    (getEmissionsBySCC 0 srvEmisFan 2015 0).toOption = some [1, 0] ∧
    (consumptionFanOut srvEmisFan.IndustryToSCCMap srvEmisFan.SCCs.length
        [1, 0]).toOption = some [1, 1] ∧
    ([1, 0] : List ℚ) ≠ [1, 1] := by
  refine ⟨?_, ?_, by norm_num⟩
  · norm_num [getEmissionsBySCC, srvEmisFan, GoMat.At, vecAt,
      show List.range 2 = [0, 1] from rfl, show List.range 1 = [0] from rfl,
      Except.toOption]
  · norm_num [consumptionFanOut, srvEmisFan, fanOutGo, addToSectors, vecAt,
      Except.toOption, show List.replicate 2 (0 : ℚ) = [0, 0] from rfl]

/-- C5 (amended): the emissions aggregation step is a collapse of the grid
dimension, not of the industry dimension: whenever the emissions provider
succeeds with a matrix whose column count passes the check,
`getEmissionsBySCC` returns, for each sector, the sum of that sector's
column over all grid rows.  The industry→SCC fan-out is applied only to
consumption vectors. -/
theorem C5_emis_column_sums (s : Server) (demand : ℕ) (year : ℤ) (loc : ℕ)
    (emis : GoMat)
    (h1 : s.emissionsMatrix demand year loc = Except.ok emis)
    (h2 : emis.c = s.SCCs.length) :
    (getEmissionsBySCC demand s year loc).toOption =
      some ((List.range s.SCCs.length).map
        (fun j => ∑ i ∈ Finset.range emis.r, emis.At i j)) := by
  rw [getEmissionsBySCC, h1]
  show (if emis.c ≠ s.SCCs.length then
      Except.error (Err.dimension "expected emissions to have #SCC columns")
    else
      Except.ok ((List.range s.SCCs.length).map (fun sectorIdx =>
        ((List.range emis.r).map (fun i => emis.At i sectorIdx)).sum))).toOption
    = _
  rw [if_neg (fun hc => hc h2)]
  simp only [Except.toOption]
  refine congrArg some (List.map_congr_left (fun j _ => ?_))
  exact sum_map_range _ _

/-- C5 amended witness: on `srvEmisFan` the column-sum characterization
holds at the concrete emissions matrix `[[1, 0]]`. -/
theorem C5_emis_column_sums_witness :
    srvEmisFan.emissionsMatrix 0 2015 0 =
      Except.ok (⟨1, 2, [[1, 0]]⟩ : GoMat) ∧
    (⟨1, 2, [[1, 0]]⟩ : GoMat).c = srvEmisFan.SCCs.length ∧
    (getEmissionsBySCC 0 srvEmisFan 2015 0).toOption =
      some ((List.range srvEmisFan.SCCs.length).map
        (fun j => ∑ i ∈ Finset.range (⟨1, 2, [[1, 0]]⟩ : GoMat).r,
          (⟨1, 2, [[1, 0]]⟩ : GoMat).At i j)) :=
  ⟨rfl, rfl, C5_emis_column_sums srvEmisFan 0 2015 0 ⟨1, 2, [[1, 0]]⟩ rfl rfl⟩

/-- C6: for every non-empty group list, every valid emissions-by-sector
vector, and every consumption provider for which each group's consumption
fetch succeeds, the matrix built by `demAndEmissions` (lines 98–111) has
exactly `len(dems)` rows and `len(s.SCCs)` columns, and cell `(i, j)` is the
element-wise product `consumptionBySCC[i][j] * emissionsBySCC[j]` — a
Hadamard product, not a matrix product. -/
theorem C6_matrix_shape_hadamard (s : Server) (emis : List ℚ) (dems : List ℕ)
    (year : ℤ) (cons : ℕ → List ℚ)
    (hne : dems ≠ [])
    (hemis : emis.length = s.SCCs.length)
    (hok : ∀ k, ∀ hk : k < dems.length,
      getConsumptionBySCC s (dems.get ⟨k, hk⟩) year = Except.ok (cons k)) :
    (demAndEmissionsCore s emis dems year).toOption =
      some ⟨dems.length, s.SCCs.length,
        (List.range dems.length).map (fun i =>
          (List.range s.SCCs.length).map
            (fun j => vecAt (cons i) j * vecAt emis j))⟩ := by
  rw [demAndEmissionsCore,
    demGo_spec s emis year dems 0 (GoMat.newDense dems.length s.SCCs.length)
      cons hok
      (fun k hk => getConsumptionBySCC_length (hok k hk))
      (fun row hrow => by
        rw [List.eq_of_mem_replicate hrow]
        exact List.length_replicate _ _)
      (by simp [GoMat.newDense])]
  simp only [GoMat.newDense, Except.toOption, Nat.zero_add]
  rw [foldl_range_set_eq_map _ (List.length_replicate _ _)]

/-- C6 witness: the spec's end-to-end scenario — identity mapping over two
sectors, consumption `[1, 1]` and `[3, 1]`, emissions `[10, 20]` — yields
the 2 × 2 matrix `[[10, 20], [30, 20]]`. -/
theorem C6_matrix_shape_hadamard_witness :
    (demAndEmissionsCore srvHadamard [10, 20] [0, 1] 2015).toOption =
      some ⟨2, 2, [[10, 20], [30, 20]]⟩ :=
  (C6_matrix_shape_hadamard srvHadamard [10, 20] [0, 1] 2015
    (fun kk => if kk = 0 then [1, 1] else [3, 1])
    (by simp)
    rfl
    (by
      intro kk hk
      have h2 : kk < 2 := by simpa using hk
      interval_cases kk <;>
        norm_num [getConsumptionBySCC, srvHadamard, consumptionFanOut,
          fanOutGo, addToSectors, vecAt,
          show List.replicate 2 (0 : ℚ) = [0, 0] from rfl])).trans
  (by norm_num [vecAt, srvHadamard, show List.range 2 = [0, 1] from rfl])

/-- C7: under the data-model invariants (values and map of equal length,
every referenced sector index in range, each industry's sector set free of
duplicates), the fan-out satisfies: `output[t]` is the sum of `values[k]`
over all industries `k` whose map entry contains `t`; for non-negative
inputs each mapped sector receives the whole value (`output[a] ≥ values[k]`
for every `a` in entry `k`, not a split); sectors referenced by no industry
stay zero; and the output length is exactly `numSCC`. -/
theorem C7_fanout_characterization (mp : List (List ℕ)) (numSCC : ℕ)
    (data : List ℚ)
    (hlen : data.length = mp.length)
    (hvalid : ∀ l ∈ mp, ∀ x ∈ l, x < numSCC)
    (hnodup : ∀ l ∈ mp, l.Nodup) :
    (consumptionFanOut mp numSCC data).toOption =
      some ((List.range numSCC).map (fun t =>
        ∑ k ∈ Finset.range data.length,
          if t ∈ mp.getD k [] then vecAt data k else 0)) ∧
    (∀ i, i < data.length → (∀ x ∈ data, 0 ≤ x) →
      ∀ a ∈ mp.getD i [],
        vecAt data i ≤
          vecAt ((consumptionFanOut mp numSCC data).toOption.getD []) a) ∧
    (∀ t, t < numSCC → (∀ l ∈ mp, t ∉ l) →
      vecAt ((consumptionFanOut mp numSCC data).toOption.getD []) t = 0) ∧
    ((consumptionFanOut mp numSCC data).toOption.getD []).length = numSCC := by
  have hspec := fanOutGo_spec mp data 0 (List.replicate numSCC 0)
    (by rw [hlen]; omega)
    (fun l hl x hx => by
      rw [List.length_replicate]; exact hvalid l hl x hx)
  rw [List.length_replicate] at hspec
  have hform : (List.range numSCC).map
      (fun t => vecAt (List.replicate numSCC 0) t +
        ∑ k ∈ Finset.range data.length,
          vecAt data k * (((mp.getD (0 + k) []).count t : ℕ) : ℚ)) =
      (List.range numSCC).map (fun t =>
        ∑ k ∈ Finset.range data.length,
          if t ∈ mp.getD k [] then vecAt data k else 0) := by
    refine List.map_congr_left (fun t _ => ?_)
    rw [vecAt_replicate_zero, zero_add]
    refine Finset.sum_congr rfl (fun k hk => ?_)
    have hk' : k < data.length := Finset.mem_range.mp hk
    have hkm : k < mp.length := by omega
    have hmem : mp.getD k [] ∈ mp := getD_mem hkm []
    rw [Nat.zero_add]
    by_cases ht2 : t ∈ mp.getD k []
    · rw [List.count_eq_one_of_mem (hnodup _ hmem) ht2, if_pos ht2]
      norm_num
    · rw [List.count_eq_zero_of_not_mem ht2, if_neg ht2]
      norm_num
  rw [hform] at hspec
  have htoOpt : (consumptionFanOut mp numSCC data).toOption =
      some ((List.range numSCC).map (fun t =>
        ∑ k ∈ Finset.range data.length,
          if t ∈ mp.getD k [] then vecAt data k else 0)) := by
    rw [consumptionFanOut, hspec]
    rfl
  have hgetD : (consumptionFanOut mp numSCC data).toOption.getD [] =
      (List.range numSCC).map (fun t =>
        ∑ k ∈ Finset.range data.length,
          if t ∈ mp.getD k [] then vecAt data k else 0) := by
    rw [htoOpt]
    rfl
  refine ⟨htoOpt, ?_, ?_, ?_⟩
  · intro i hi hnn a ha
    have him : i < mp.length := by omega
    have hamem : a < numSCC := hvalid _ (getD_mem him []) a ha
    rw [hgetD, vecAt_map_range hamem]
    have hnonneg : ∀ k ∈ Finset.range data.length,
        0 ≤ (if a ∈ mp.getD k [] then vecAt data k else 0) := by
      intro k _
      by_cases hc : a ∈ mp.getD k []
      · rw [if_pos hc]; exact vecAt_nonneg hnn k
      · rw [if_neg hc]
    have := Finset.single_le_sum hnonneg (Finset.mem_range.mpr hi)
    rwa [if_pos ha] at this
  · intro t ht hnone
    rw [hgetD, vecAt_map_range ht]
    refine Finset.sum_eq_zero (fun k hk => ?_)
    have hk' : k < data.length := Finset.mem_range.mp hk
    have hkm : k < mp.length := by omega
    rw [if_neg (hnone _ (getD_mem hkm []))]
  · rw [hgetD, List.length_map, List.length_range]

/-- C7 witness: map `[[0, 1], [1]]` over 3 sectors with non-negative data
`[2, 3]` satisfies all invariants, so the characterization applies. -/
theorem C7_fanout_characterization_witness :
    ([2, 3] : List ℚ).length = ([[0, 1], [1]] : List (List ℕ)).length ∧
    (∀ l ∈ ([[0, 1], [1]] : List (List ℕ)), ∀ x ∈ l, x < 3) ∧
    (∀ l ∈ ([[0, 1], [1]] : List (List ℕ)), l.Nodup) ∧
    ((consumptionFanOut [[0, 1], [1]] 3 [2, 3]).toOption =
      some ((List.range 3).map (fun t =>
        ∑ k ∈ Finset.range ([2, 3] : List ℚ).length,
          if t ∈ ([[0, 1], [1]] : List (List ℕ)).getD k [] then
            vecAt [2, 3] k else 0)) ∧
    (∀ i, i < ([2, 3] : List ℚ).length → (∀ x ∈ ([2, 3] : List ℚ), 0 ≤ x) →
      ∀ a ∈ ([[0, 1], [1]] : List (List ℕ)).getD i [],
        vecAt [2, 3] i ≤
          vecAt ((consumptionFanOut [[0, 1], [1]] 3 [2, 3]).toOption.getD []) a) ∧
    (∀ t, t < 3 → (∀ l ∈ ([[0, 1], [1]] : List (List ℕ)), t ∉ l) →
      vecAt ((consumptionFanOut [[0, 1], [1]] 3 [2, 3]).toOption.getD []) t = 0) ∧
    ((consumptionFanOut [[0, 1], [1]] 3 [2, 3]).toOption.getD []).length = 3) :=
  ⟨by decide, by decide, by decide,
    C7_fanout_characterization [[0, 1], [1]] 3 [2, 3] (by decide) (by decide)
      (by decide)⟩

/-- C8: when every industry maps to exactly one sector (and the indices are
valid and the lengths agree), the fan-out preserves the total: the sum of the
output vector equals the sum of the input vector. -/
theorem C8_sum_preservation (mp : List (List ℕ)) (numSCC : ℕ) (data : List ℚ)
    (hlen : data.length = mp.length)
    (hone : ∀ l ∈ mp, l.length = 1)
    (hvalid : ∀ l ∈ mp, ∀ x ∈ l, x < numSCC) :
    (consumptionFanOut mp numSCC data).toOption.map List.sum =
      some data.sum := by
  obtain ⟨res, h1, h2⟩ := fanOutGo_sum mp data 0 (List.replicate numSCC 0)
    (by rw [hlen]; omega)
    (fun l hl x hx => by
      rw [List.length_replicate]; exact hvalid l hl x hx)
  rw [consumptionFanOut, h1]
  show some res.sum = some data.sum
  refine congrArg some ?_
  rw [h2]
  have hrep : (List.replicate numSCC (0 : ℚ)).sum = 0 := by simp
  rw [hrep, zero_add]
  have hterm : ∀ k ∈ Finset.range data.length,
      vecAt data k * ((mp.getD (0 + k) []).length : ℚ) = vecAt data k := by
    intro k hk
    have hk' : k < data.length := Finset.mem_range.mp hk
    have hkm : k < mp.length := by omega
    rw [Nat.zero_add, hone _ (getD_mem hkm [])]
    norm_num
  rw [Finset.sum_congr rfl hterm]
  exact sum_range_vecAt data

/-- C8 witness: the one-sector-per-industry map `[[0], [2]]` over 3 sectors
with data `[5, 7]` preserves the sum. -/
theorem C8_sum_preservation_witness :
    ([5, 7] : List ℚ).length = ([[0], [2]] : List (List ℕ)).length ∧
    (∀ l ∈ ([[0], [2]] : List (List ℕ)), l.length = 1) ∧
    (∀ l ∈ ([[0], [2]] : List (List ℕ)), ∀ x ∈ l, x < 3) ∧
    (consumptionFanOut [[0], [2]] 3 [5, 7]).toOption.map List.sum =
      some (([5, 7] : List ℚ).sum) :=
  ⟨by decide, by decide, by decide,
    C8_sum_preservation [[0], [2]] 3 [5, 7] (by decide) (by decide)
      (by decide)⟩

/-- C9: the exposure totals are linear in the concentration vector — scaling
every concentration value by `k` scales every group's accumulated exposure
total by exactly `k` (exact in this `ℚ` model of `float64`). -/
theorem C9_exposure_linearity (k : ℚ) (grids : List (List ℚ))
    (conc : List ℚ) :
    exposureAccum grids (conc.map (fun x => k * x)) =
      (exposureAccum grids conc).map (fun x => k * x) := by
  rw [exposureAccum, exposureAccum]
  calc exposureGo grids (conc.map (fun x => k * x)) 0
        (List.replicate grids.length 0)
      = exposureGo grids (conc.map (fun x => k * x)) 0
          ((List.replicate grids.length 0).map (fun x => k * x)) := by
        rw [List.map_replicate, mul_zero]
    _ = (exposureGo grids conc 0 (List.replicate grids.length 0)).map
          (fun x => k * x) :=
        exposureGo_linear grids k conc 0 _
